import Mathlib

/-!
Verification development for the jgd render stream engine (R graphics device
streaming structured drawing operations to a remote renderer).

The C sources under `src/r-pkg/src/` are shallowly embedded: doubles are
modelled as exact rationals (`ℚ`), C ints as `ℤ`/`ℕ`, the cJSON linked list
of a page's operations as a Lean list, and the transport's newline-framed
byte stream as a list of messages (or, for the byte-level transport model,
a list of bytes).  Drawing operations themselves are opaque (`Op := ℕ`):
none of the verified properties depends on their structure.
-/

namespace JGD

/-! ## Page and op log (src/r-pkg/src/display_list.c)

`jgd_page_t` keeps the cJSON array `ops`, the tail pointer `ops_tail` and
the delta cursor `last_flush_tail`.  `last_flush_tail` is modelled as the
number of operations up to and including the node it points at (`none`
models the NULL pointer; since the log is append-only, `ops_tail` is NULL
exactly while the log is empty, and otherwise denotes position
`ops.length`). -/
abbrev Op := Nat

abbrev Color := Nat

structure jgd_page where
  ops : List Op
  last_flush_tail : Option Nat
  width : ℚ
  height : ℚ
  dpi : ℚ
  bg : Color
deriving DecidableEq, Repr

def page_init (width height dpi : ℚ) (bg : Color) : jgd_page :=
  { ops := [], last_flush_tail := none,
    width := width, height := height, dpi := dpi, bg := bg }

def page_add_op (p : jgd_page) (op : Op) : jgd_page :=
  { p with ops := p.ops ++ [op] }

def op_count (p : jgd_page) : Nat := p.ops.length

/-- The ops array built by `page_serialize_frame` (display_list.c:108-119):
in incremental mode with a non-NULL `last_flush_tail` the walk starts at
`last_flush_tail->next`, otherwise at the head of the log. -/
def page_serialize_ops (p : jgd_page) (incremental : Bool) : List Op :=
  match incremental, p.last_flush_tail with
  | true, some k => p.ops.drop k
  | _, _ => p.ops

/-- `page_serialize_frame` emits the ops array and then advances
`last_flush_tail` to `ops_tail`, the current end of the log
(display_list.c:125). -/
def page_serialize_frame (p : jgd_page) (incremental : Bool) :
    List Op × jgd_page :=
  (page_serialize_ops p incremental,
   { p with last_flush_tail := if p.ops.isEmpty then none else some p.ops.length })

/-- Append a batch of operations to a page, one `page_add_op` at a time. -/
def appendOps (p : jgd_page) (batch : List Op) : jgd_page :=
  batch.foldl page_add_op p

/-- A sequence of Delta serializations, one issued after appending each
batch of operations; returns the concatenation of all emitted ops arrays
and the final page. -/
def deltaRun (p : jgd_page) : List (List Op) → List Op × jgd_page
  | [] => ([], p)
  | b :: bs =>
    let r1 := page_serialize_frame (appendOps p b) true
    let r2 := deltaRun r1.2 bs
    (r1.1 ++ r2.1, r2.2)

/-- Cursor invariant holding after `page_init` and after every
serialization: `last_flush_tail` sits at the current end of the log. -/
def flushedInv (p : jgd_page) : Prop :=
  p.last_flush_tail = if p.ops.isEmpty then none else some p.ops.length

/-! ## Inbound messages, frames, device state (callbacks.c / device.c / device.h)

Inbound wire messages are modelled at message granularity: one `Msg` per
newline-delimited line.  `Msg.other` covers every line that is not a
well-formed resize or metrics response (unparseable JSON, unknown type,
…). -/
inductive Msg where
  | resize (w h : ℚ) (plotIndex : Option ℤ)
  | metricsResponse (width : ℚ)
  | other
deriving DecidableEq, Repr

/-- One recorded page as the R graphics engine retains it: the fill of its
`newPage` record plus the drawing operations that replay through the
device callbacks. -/
structure RecordedPage where
  fill : Color
  ops : List Op
deriving DecidableEq, Repr

/-- The engine's display list, or a `GEcreateSnapshot` result: `none`
while nothing has been recorded (no page begun yet). -/
abbrev DisplayList := Option RecordedPage

/-- One serialized frame as handed to `transport_send` by
`jgd_flush_frame`. -/
structure Frame where
  incremental : Bool
  newPage : Bool
  width : ℚ
  height : ℚ
  dpi : ℚ
  bg : Color
  ops : List Op
deriving DecidableEq, Repr

/-- Font attributes of a metrics query (subset of `pGEcontext` used by
`mcache_hash` and the local fallback).  `sizeBits` stands for the IEEE-754
bit pattern of the double `cex * ps` that the C hash mixes in via
`memcpy`; it is carried as an opaque natural number. -/
structure GCFont where
  family : String
  face : ℕ
  cex : ℚ
  ps : ℚ
  sizeBits : ℕ
deriving DecidableEq, Repr

/-- One slot of the direct-mapped metrics cache (callbacks.c:208-214). -/
structure McEntry where
  hash : ℕ
  v1 : ℚ
  v2 : ℚ
  v3 : ℚ
  occupied : Bool
deriving DecidableEq, Repr

def MCACHE_SIZE : ℕ := 512

/-- device.h: `#define JGD_MAX_SNAPSHOTS 50`. -/
def JGD_MAX_SNAPSHOTS : ℕ := 50

/-- `jgd_state_t` (device.h) plus the environment the callbacks interact
with: the engine display list, the inbound message queue (transport read
side), the trace of frames handed to `transport_send`, the trace of sent
metrics requests, and the process-wide metrics cache. -/
structure St where
  page : jgd_page
  width : ℚ
  height : ℚ
  dpi : ℚ
  page_count : ℕ
  drawing : Bool
  last_flushed_ops : ℕ
  hold_level : ℕ
  replaying : Bool
  new_page : Bool
  pending_w : ℚ
  pending_h : ℚ
  pending_plot_index : ℤ
  has_buffered_resize : Bool
  buffered_w : ℚ
  buffered_h : ℚ
  buffered_plot_index : ℤ
  dl : DisplayList
  snapshots : List DisplayList
  snapshot_base : ℕ
  last_snapshot : Option DisplayList
  connected : Bool
  inbox : List Msg
  frames : List Frame
  requests : List (List ℕ × GCFont)
  mcache : ℕ → McEntry

/-- `jgd_try_parse_resize` (device.c:521-544): returns the accepted
dimensions (only when the message is a resize with positive width and
height) and the plotIndex out-parameter, which is written for every
resize-typed message (−1 when absent) and left at its caller-initialised
−1 otherwise. -/
def jgd_try_parse_resize : Msg → Option (ℚ × ℚ) × ℤ
  | .resize w h pi => (if 0 < w ∧ 0 < h then some (w, h) else none, pi.getD (-1))
  | _ => (none, -1)

/-- Message-level `transport_has_data`: at least one full line available. -/
def transport_has_data_msg (st : St) : Bool :=
  st.connected && !st.inbox.isEmpty

/-- The frame built by `jgd_flush_frame` from the current page. -/
def mkFrame (st : St) (incremental np : Bool) : Frame :=
  { incremental := incremental, newPage := np,
    width := st.page.width, height := st.page.height, dpi := st.page.dpi,
    bg := st.page.bg, ops := (page_serialize_frame st.page incremental).1 }

/-- Serialize the page, hand the frame to `transport_send`, advance the
page's flush cursor. -/
def flush_send (st : St) (incremental np : Bool) : St :=
  { st with page := (page_serialize_frame st.page incremental).2,
            frames := st.frames ++ [mkFrame st incremental np] }

/-- `jgd_flush_frame` (callbacks.c:22-30): serialize the current page and
hand the frame to `transport_send`; the `newPage` flag is set only on a
complete frame outside replay, and is cleared once emitted. -/
def jgd_flush_frame (st : St) (incremental : Bool) : St :=
  if !incremental && st.new_page && !st.replaying then
    { flush_send st incremental true with new_page := false }
  else flush_send st incremental false

/-- `check_incoming` (callbacks.c:405-440): read at most one message; a
plotIndex resize goes to the single-entry buffer, a normal resize to
`pending_w`/`pending_h`; skipped entirely while a buffered resize is
held. -/
def check_incoming (st : St) : St :=
  if st.has_buffered_resize then st
  else if transport_has_data_msg st then
    match st.inbox with
    | [] => st
    | m :: rest =>
      let st1 := { st with inbox := rest }
      let pr := jgd_try_parse_resize m
      match pr.1 with
      | some (w, h) =>
        if 0 ≤ pr.2 then
          { st1 with has_buffered_resize := true, buffered_w := w,
                     buffered_h := h, buffered_plot_index := pr.2 }
        else { st1 with pending_w := w, pending_h := h }
      | none => st1
  else st

/-- `apply_pending_resize` (callbacks.c:442-453). -/
def apply_pending_resize (st : St) : St :=
  if 0 < st.pending_w ∧ 0 < st.pending_h then
    { st with width := st.pending_w / st.dpi, height := st.pending_h / st.dpi,
              pending_w := 0, pending_h := 0 }
  else st

/-- The snapshot-store append of `cb_newPage` (callbacks.c:47-59),
parameterised by the capacity `JGD_MAX_SNAPSHOTS`: when full, index 0 is
evicted and all other entries shift down by one; otherwise the snapshot is
appended. -/
def snapshotPushCap (cap : ℕ) (store : List DisplayList) (s : DisplayList) :
    List DisplayList :=
  if cap ≤ store.length then store.drop 1 ++ [s] else store ++ [s]

def snapshotPush : List DisplayList → DisplayList → List DisplayList :=
  snapshotPushCap JGD_MAX_SNAPSHOTS

/-- First step of `cb_newPage` (callbacks.c:40-42): flush the previous
page's unsent tail as a complete frame (skipped during replay). -/
def cb_newPage_flush (st : St) : St :=
  if 0 < st.page_count ∧ st.last_flushed_ops < st.page.ops.length ∧ ¬st.replaying
  then jgd_flush_frame st false else st

/-- Second step of `cb_newPage` (callbacks.c:47-62): move the
`last_snapshot` captured at the last complete flush into the snapshot
store (skipped during replay). -/
def cb_newPage_snap (st : St) : St :=
  if 0 < st.page_count ∧ ¬st.replaying then
    match st.last_snapshot with
    | some snap =>
      { st with
        snapshots := snapshotPush st.snapshots snap,
        snapshot_base :=
          if JGD_MAX_SNAPSHOTS ≤ st.snapshots.length then st.snapshot_base + 1
          else st.snapshot_base,
        last_snapshot := none }
    | none => st
  else st

/-- Last step of `cb_newPage` (callbacks.c:71-76): begin the new page at
the current device dimensions. -/
def cb_newPage_begin (fill : Color) (st : St) : St :=
  { st with
    page := page_init (st.width * st.dpi) (st.height * st.dpi) st.dpi fill,
    page_count := st.page_count + 1, last_flushed_ops := 0, new_page := true }

/-- `cb_newPage` (callbacks.c:37-77). -/
def cb_newPage (fill : Color) (st : St) : St :=
  cb_newPage_begin fill
    (apply_pending_resize (check_incoming (cb_newPage_snap (cb_newPage_flush st))))

/-- A drawing callback (`cb_line`, `cb_rect`, …): appends one structured
operation to the current page. -/
def cb_draw (o : Op) (st : St) : St := { st with page := page_add_op st.page o }

def playOps (l : List Op) (st : St) : St := l.foldl (fun s o => cb_draw o s) st

/-- `GEcreateSnapshot`: captures the engine display list. -/
def GEcreateSnapshot (st : St) : DisplayList := st.dl

/-- The flush-on-unheld-mode-0 step of `cb_mode` (callbacks.c:466-485):
flush (incremental after the first complete frame of the page) and capture
a snapshot after each complete frame. -/
def cb_mode_flush (st : St) : St :=
  if st.hold_level = 0 ∧ st.last_flushed_ops < st.page.ops.length then
    if 0 < st.last_flushed_ops then
      { jgd_flush_frame st true with last_flushed_ops := st.page.ops.length }
    else
      { jgd_flush_frame st false with
        last_flushed_ops := st.page.ops.length,
        last_snapshot := some (GEcreateSnapshot st) }
  else st

/-- `cb_mode` (callbacks.c:455-487): a no-op during replay. -/
def cb_mode (mode : ℕ) (st : St) : St :=
  if st.replaying then st
  else if mode = 1 then { st with drawing := true }
  else if mode = 0 then cb_mode_flush { st with drawing := false }
  else st

/-- `cb_holdflush` (callbacks.c:489-514): delta-adjust the hold level
(clamped at 0); on the held→unheld transition flush a complete frame and
capture a snapshot. -/
def cb_holdflush (level : ℤ) (st : St) : St :=
  if st.replaying then st
  else if 0 < st.hold_level ∧ ((st.hold_level : ℤ) + level).toNat = 0 ∧
          st.last_flushed_ops < st.page.ops.length then
    { jgd_flush_frame { st with hold_level := ((st.hold_level : ℤ) + level).toNat } false with
      last_flushed_ops := st.page.ops.length,
      last_snapshot := some (GEcreateSnapshot st) }
  else { st with hold_level := ((st.hold_level : ℤ) + level).toNat }

/-- `GEplayDisplayList`: a no-op on an empty display list; otherwise
replays the recorded page through the device callbacks (its `newPage`
record first, then the drawing operations, bracketed by mode changes). -/
def GEplayDisplayList (st : St) : St :=
  match st.dl with
  | none => st
  | some r => cb_mode 0 (playOps r.ops (cb_mode 1 (cb_newPage r.fill st)))

/-- `GEplaySnapshot`: restores the display list from the snapshot and
replays it through the device callbacks. -/
def GEplaySnapshot (snap : DisplayList) (st : St) : St :=
  GEplayDisplayList { st with dl := snap }

/-- The drain-at-most-one step at the top of `poll_resize_impl`
(device.c:250-264): drain the buffered plotIndex resize if one is held,
else read at most one line from the transport. -/
def poll_drain_one (st : St) : St :=
  if st.has_buffered_resize then
    { st with pending_w := st.buffered_w, pending_h := st.buffered_h,
              pending_plot_index := st.buffered_plot_index,
              has_buffered_resize := false }
  else if transport_has_data_msg st then
    match st.inbox with
    | [] => st
    | m :: rest =>
      let st1 := { st with inbox := rest }
      let pr := jgd_try_parse_resize m
      let st2 := match pr.1 with
        | some (w, h) => { st1 with pending_w := w, pending_h := h }
        | none => st1
      if 0 ≤ pr.2 then { st2 with pending_plot_index := pr.2 } else st2
  else st

/-- The dimension application of `poll_resize_impl` (device.c:269-280):
convert the pending pixel dimensions to inches, clear them, and clear the
pending plot index. -/
def poll_apply_dims (st : St) : St :=
  { st with
    width := st.pending_w / st.dpi, height := st.pending_h / st.dpi,
    pending_w := 0, pending_h := 0, pending_plot_index := -1 }

/-- The flush-after-replay step of `poll_resize_impl` (device.c:303-306
and 348-355): flush a complete frame only if the replay re-derived
operations beyond the last flush. -/
def poll_flush_replay (st : St) : St :=
  if st.last_flushed_ops < st.page.ops.length then
    { jgd_flush_frame st false with last_flushed_ops := st.page.ops.length }
  else st

/-- One guarded snapshot replay of the historical branch: set the
re-entrancy guard and a high hold level, replay, then clear both. -/
def poll_play_guarded (snap : DisplayList) (st : St) : St :=
  { GEplaySnapshot snap { st with replaying := true, hold_level := 100 } with
      hold_level := 0, replaying := false }

/-- The historical branch of `poll_resize_impl` (device.c:286-318):
replay the stored snapshot, flush its frame, then restore the live page
and suppress re-flushing it. -/
def poll_historical_branch (pi : ℕ) (st : St) : St :=
  { poll_play_guarded (GEcreateSnapshot st)
      (poll_flush_replay (poll_play_guarded (st.snapshots.getD pi none) st)) with
    last_flushed_ops :=
      (poll_play_guarded (GEcreateSnapshot st)
        (poll_flush_replay (poll_play_guarded (st.snapshots.getD pi none) st))).page.ops.length }

/-- The current-page branch of `poll_resize_impl` (device.c:319-356):
replay the display list under the re-entrancy guard, then flush once. -/
def poll_current_branch (st : St) : St :=
  poll_flush_replay { GEplayDisplayList { st with replaying := true } with replaying := false }

/-- `poll_resize_impl` (device.c:239-359). -/
def poll_resize_impl (st : St) : Bool × St :=
  if 0 < (poll_drain_one st).pending_w ∧ 0 < (poll_drain_one st).pending_h then
    if 0 ≤ (poll_drain_one st).pending_plot_index ∧
       (poll_drain_one st).pending_plot_index.toNat < (poll_drain_one st).snapshots.length then
      (true, poll_historical_branch (poll_drain_one st).pending_plot_index.toNat
               (poll_apply_dims (poll_drain_one st)))
    else
      (true, poll_current_branch (poll_apply_dims (poll_drain_one st)))
  else (false, poll_drain_one st)

/-- A concrete quiescent device state used by the witnesses and
counterexamples below. -/
def baseSt : St :=
  { page := page_init 700 700 1 255,
    width := 700, height := 700, dpi := 1,
    page_count := 1, drawing := false, last_flushed_ops := 0, hold_level := 0,
    replaying := false, new_page := false,
    pending_w := 0, pending_h := 0, pending_plot_index := -1,
    has_buffered_resize := false, buffered_w := 0, buffered_h := 0,
    buffered_plot_index := -1,
    dl := none, snapshots := [], snapshot_base := 0, last_snapshot := none,
    connected := true, inbox := [], frames := [], requests := [],
    mcache := fun _ => { hash := 0, v1 := 0, v2 := 0, v3 := 0, occupied := false } }

/-- Witness for C2: a pending 800×600 resize of a page whose display list
re-derives three operations emits exactly one Full frame at 800×600 with
those three ops. -/
def C3st : St :=
  { baseSt with
    page := { page_init 700 700 1 255 with ops := [1, 2, 3] },
    last_flushed_ops := 3,
    has_buffered_resize := true,
    buffered_w := 800,
    buffered_h := 600,
    buffered_plot_index := 0,
    snapshots := [some ⟨9, [4, 5]⟩],
    dl := some ⟨255, [1, 2, 3]⟩ }

def C2st : St :=
  { baseSt with
    pending_w := 800,
    pending_h := 600,
    dl := some ⟨255, [1, 2, 3]⟩ }

def C5st : St :=
  { baseSt with
    inbox := [Msg.resize 100 100 none, Msg.resize 200 200 none],
    dl := some ⟨255, [5]⟩ }

def C9st : St :=
  { baseSt with
    pending_w := 800,
    pending_h := 600,
    pending_plot_index := 0,
    dl := some ⟨255, [7]⟩ }

/-! ## Metrics exchange (callbacks.c:194-403) and local fallback
(r-package/src/metrics.c)

The metrics id counter only tags requests and is never compared on
receipt (`recv_metrics_response` accepts any `metrics_response`), so it is
not modelled; sent requests are traced in `St.requests`. -/
/-- One djb2-xor step of `mcache_hash` on 32-bit unsigned arithmetic:
`h = ((h << 5) + h) ^ b`. -/
def hstep (h b : ℕ) : ℕ := Nat.xor (h * 33 % 2 ^ 32) (b % 2 ^ 32)

/-- `mcache_hash` (callbacks.c:216-229): hash of the query string bytes,
the font face, the bit pattern of the font size double (`sizeBits`), and
the font family bytes (modelled as character codes). -/
def mcache_hash (str : List ℕ) (gc : GCFont) : ℕ :=
  gc.family.data.foldl (fun h c => hstep h (c.toNat % 256))
    (hstep (hstep (str.foldl (fun h b => hstep h (b % 256)) 5381) gc.face)
      gc.sizeBits)

/-- `mcache_lookup` (callbacks.c:235-239): trusted purely by hash
equality, no secondary key comparison. -/
def mcache_lookup (hash : ℕ) (cache : ℕ → McEntry) : Option McEntry :=
  if (cache (hash % MCACHE_SIZE)).occupied = true ∧
     (cache (hash % MCACHE_SIZE)).hash = hash
  then some (cache (hash % MCACHE_SIZE)) else none

/-- `mcache_store` (callbacks.c:241-248). -/
def mcache_store (hash : ℕ) (v1 v2 v3 : ℚ) (cache : ℕ → McEntry) :
    ℕ → McEntry :=
  fun i =>
    if i = hash % MCACHE_SIZE then
      { hash := hash, v1 := v1, v2 := v2, v3 := v3, occupied := true }
    else cache i

/-- `avg_char_width` (metrics.c:15-30). -/
def avg_char_width (family : String) (face : ℕ) : ℚ :=
  if family.data.head? = some 'm' ∨ family.data.head? = some 'M' ∨
     family = "Courier" ∨ family = "mono" then 0.6
  else if family = "serif" ∨ family = "Times" then
    if face = 2 ∨ face = 4 then 0.52 else 0.48
  else if face = 2 ∨ face = 4 then 0.56 else 0.53

/-- `font_size_device` (metrics.c:39-41). -/
def font_size_device (gc : GCFont) (dpi : ℚ) : ℚ :=
  gc.cex * gc.ps * (dpi / 72)

/-- The UTF-8 lead-byte count of `metrics_str_width` (metrics.c:49-54):
a byte is counted unless `(b & 0xC0) == 0x80`. -/
def utf8_nchars (str : List ℕ) : ℕ :=
  (str.filter (fun b => ¬(Nat.land (b % 256) 0xC0 = 0x80))).length

/-- `metrics_str_width` (metrics.c:43-56): the deterministic local
approximation. -/
def metrics_str_width (str : List ℕ) (gc : GCFont) (dpi : ℚ) : ℚ :=
  (utf8_nchars str : ℚ) * avg_char_width gc.family gc.face *
    font_size_device gc dpi

/-- `recv_metrics_response` (callbacks.c:262-299): up to five reads; a
metrics response is returned (no id check), resize messages are stashed
(plotIndex present ⇒ single-entry buffer, else pending dims), anything
else is skipped; an empty inbox models the 500 ms timeout. -/
def recv_metrics_response : ℕ → St → Option ℚ × St
  | 0, st => (none, st)
  | fuel + 1, st =>
    match st.inbox with
    | [] => (none, st)
    | m :: rest =>
      match m with
      | .metricsResponse w => (some w, { st with inbox := rest })
      | .resize w h pi =>
        if 0 < w ∧ 0 < h then
          match pi with
          | some i =>
            recv_metrics_response fuel
              { st with inbox := rest, has_buffered_resize := true,
                        buffered_w := w, buffered_h := h,
                        buffered_plot_index := i }
          | none =>
            recv_metrics_response fuel
              { st with inbox := rest, pending_w := w, pending_h := h }
        else recv_metrics_response fuel { st with inbox := rest }
      | .other => recv_metrics_response fuel { st with inbox := rest }

/-- Sending a metrics request (the `transport_send` of the serialized
request in `cb_strWidth`). -/
def metrics_send_request (str : List ℕ) (gc : GCFont) (st : St) : St :=
  { st with requests := st.requests ++ [(str, gc)] }

/-- `cb_strWidth` (callbacks.c:301-339). -/
def cb_strWidth (str : List ℕ) (gc : GCFont) (st : St) : ℚ × St :=
  if st.connected = false then (metrics_str_width str gc st.dpi, st)
  else
    match mcache_lookup (mcache_hash str gc) st.mcache with
    | some e => (e.v1, st)
    | none =>
      match recv_metrics_response 5 (metrics_send_request str gc st) with
      | (some w, st1) =>
        if 0 < w then
          (w, { st1 with
                mcache := mcache_store (mcache_hash str gc) w 0 0 st1.mcache })
        else (metrics_str_width str gc st.dpi, st1)
      | (none, st1) => (metrics_str_width str gc st.dpi, st1)

def C9wst : St :=
  { baseSt with
    pending_w := 800,
    pending_h := 600,
    pending_plot_index := 5 }

def C6gc : GCFont := { family := "", face := 1, cex := 1, ps := 12, sizeBits := 1234 }

def C6str : List ℕ := [72, 105]

def C6cacheSt : St :=
  { baseSt with
    mcache := fun _ =>
      { hash := mcache_hash C6str C6gc, v1 := 42, v2 := 0, v3 := 0,
        occupied := true } }

def C7st : St := { baseSt with connected := false, dpi := 96 }

/-! ## Number serialization in frames (C8)

The frame serializer (src/r-pkg/src/display_list.c) stores every numeric
field of an op with `cJSON_CreateNumber` / `cJSON_AddNumberToObject` and
prints the frame with `cJSON_PrintUnformatted`.  cJSON itself is not
vendored under `src/`; its number printing is modelled below from the
serializer's own file comment. -/
/-- A double as stored in a cJSON number node: a finite value (an exact
rational in this model) or non-finite (NaN or an infinity). -/
inductive JNum where
  | val (q : ℚ)
  | nonfinite
deriving DecidableEq, Repr

/-- A printed JSON value of a number node. -/
inductive JVal where
  | num (q : ℚ)
  | null
deriving DecidableEq, Repr

/-- Modelled from the spec: cJSON's `print_number` (cJSON.c, not under
`src/`); per the serializer's file comment (display_list.c:5-15), numbers
are kept at full double precision — up to 17 significant digits, not
rounded to a fixed number of fractional digits — and non-finite values
serialize as `null`.  In this exact-rational model, full precision means
the stored value is emitted unchanged; printing is total and never
raises. -/
def cjson_print_number : JNum → JVal
  | .val q => .num q
  | .nonfinite => .null

/-- The numeric fields `x1, y1, x2, y2` of a `line` op as built by
`cb_line` (callbacks.c:118-129) and printed into a serialized frame. -/
def cb_line_numbers (x1 y1 x2 y2 : JNum) : List JVal :=
  [cjson_print_number x1, cjson_print_number y1,
   cjson_print_number x2, cjson_print_number y2]

/-- A printed value expressible as a fixed-precision decimal with 4
fractional digits (the set of values `%.4f` with trailing-zero stripping
can represent exactly). -/
def is_fixed4 : JVal → Prop
  | .num q => ∃ n : ℤ, q = (n : ℚ) / 10000
  | .null => True

/-! ## Byte-level transport receive (C10, src/r-pkg/src/transport.c)

`jgd_transport_t` is modelled at byte level: `readbuf` is the internal
read buffer (its capacity `cap` is a parameter: the field is declared in
transport.c but its size is not visible in the headers under `src/`),
`stream` the bytes the peer has sent that have not yet been `recv`ed.
Each `recv` call deterministically returns as many buffered bytes as fit
(at least one when the stream is non-empty); an empty stream at the poll
models the timeout, and an empty stream inside the read loop models the
peer closing the connection (`recv` returning 0). -/
structure Transport where
  readbuf : List ℕ
  connected : Bool
  stream : List ℕ
deriving DecidableEq, Repr

/-- `readbuf_extract_line` (transport.c:384-402): extract one
newline-terminated line; a line longer than `bufsize - 1` bytes is
silently truncated while the whole line, newline included, is consumed. -/
def readbuf_extract_line (bufsize : ℕ) (t : Transport) :
    Option (List ℕ) × Transport :=
  if bufsize = 0 then (none, t)
  else
    match t.readbuf.findIdx? (fun b => b == 10) with
    | none => (none, t)
    | some linelen =>
      (some (t.readbuf.take (min linelen (bufsize - 1))),
       { t with readbuf := t.readbuf.drop (linelen + 1) })

/-- The bulk-read loop of `transport_recv_line` (transport.c:498-517):
fill the internal buffer until a complete line is available; a full
buffer with no newline discards everything and disconnects. -/
def recvLoop (cap bufsize : ℕ) : ℕ → Transport → Option (List ℕ) × Transport
  | 0, t => (none, t)
  | fuel + 1, t =>
    if cap - t.readbuf.length = 0 then
      (none, { t with readbuf := [], connected := false })
    else if t.stream.isEmpty then
      (none, { t with connected := false })
    else
      match readbuf_extract_line bufsize
        { t with readbuf := t.readbuf ++ t.stream.take (cap - t.readbuf.length),
                 stream := t.stream.drop (cap - t.readbuf.length) } with
      | (some line, t1) => (some line, t1)
      | (none, _) =>
        recvLoop cap bufsize fuel
          { t with readbuf := t.readbuf ++ t.stream.take (cap - t.readbuf.length),
                   stream := t.stream.drop (cap - t.readbuf.length) }

/-- `transport_recv_line` (transport.c:404-518), POSIX socket path: fast
path from the buffer, then poll (timeout when nothing has arrived), then
the bulk-read loop. -/
def transport_recv_line (cap bufsize : ℕ) (t : Transport) :
    Option (List ℕ) × Transport :=
  if t.connected = false then (none, t)
  else
    match readbuf_extract_line bufsize t with
    | (some line, t1) => (some line, t1)
    | (none, _) =>
      if t.stream.isEmpty then (none, t)
      else recvLoop cap bufsize (t.stream.length + 1) t

def C10over : Transport := { readbuf := [65, 65], connected := true, stream := [66, 66, 66] }

def C10trunc : Transport :=
  { readbuf := [65, 66, 67, 10, 68], connected := true, stream := [] }

theorem appendOps_eq (p : jgd_page) (b : List Op) :
    appendOps p b = { p with ops := p.ops ++ b } := by
  induction b generalizing p with
  | nil => simp [appendOps]
  | cons x xs ih =>
    show appendOps (page_add_op p x) xs = _
    rw [ih]
    simp [page_add_op]

theorem flushedInv_init (w h d : ℚ) (bg : Color) :
    flushedInv (page_init w h d bg) := rfl

theorem delta_step (p : jgd_page) (b : List Op) (hInv : flushedInv p) :
    (page_serialize_frame (appendOps p b) true).1 = b ∧
    flushedInv (page_serialize_frame (appendOps p b) true).2 := by
  rw [appendOps_eq]
  unfold flushedInv at hInv
  refine ⟨?_, rfl⟩
  by_cases hops : p.ops = []
  · simp [hops] at hInv
    simp [page_serialize_frame, page_serialize_ops, hInv, hops]
  · simp [hops] at hInv
    simp [page_serialize_frame, page_serialize_ops, hInv, List.drop_left]

theorem deltaRun_spec (bs : List (List Op)) :
    ∀ p : jgd_page, flushedInv p →
    (deltaRun p bs).1 = bs.flatten ∧
    (deltaRun p bs).2.ops = p.ops ++ bs.flatten ∧
    flushedInv (deltaRun p bs).2 := by
  induction bs with
  | nil => intro p hInv; simpa [deltaRun] using hInv
  | cons b bs ih =>
    intro p hInv
    obtain ⟨h1, h2⟩ := delta_step p b hInv
    have hops : (page_serialize_frame (appendOps p b) true).2.ops = p.ops ++ b := by
      rw [appendOps_eq]; rfl
    obtain ⟨ih1, ih2, ih3⟩ := ih (page_serialize_frame (appendOps p b) true).2 h2
    refine ⟨?_, ?_, ih3⟩
    · show (page_serialize_frame (appendOps p b) true).1 ++
        (deltaRun (page_serialize_frame (appendOps p b) true).2 bs).1 = (b :: bs).flatten
      rw [h1, ih1]; simp
    · show (deltaRun (page_serialize_frame (appendOps p b) true).2 bs).2.ops = _
      rw [ih2, hops]; simp

theorem foldl_appendOps_ops (bs : List (List Op)) :
    ∀ p : jgd_page, (bs.foldl appendOps p).ops = p.ops ++ bs.flatten := by
  induction bs with
  | nil => intro p; simp
  | cons b bs ih =>
    intro p
    show (bs.foldl appendOps (appendOps p b)).ops = _
    rw [ih, appendOps_eq]
    simp

/-- C1: Full serialization of a page equals the concatenation of a
sequence of Delta serializations starting from an empty boundary, each
issued after one or more appends (same ops, same order); a Delta with no
prior boundary behaves as Full, and each serialization advances the
boundary to the current end of the log, so each Delta emits exactly the
operations appended since the previous serialization. -/
theorem C1_delta_full_equivalence :
    (∀ (w h d : ℚ) (bg : Color) (batches : List (List Op)),
        (∀ b ∈ batches, b ≠ []) →
        (deltaRun (page_init w h d bg) batches).1 =
          page_serialize_ops (batches.foldl appendOps (page_init w h d bg)) false) ∧
    (∀ p : jgd_page, p.last_flush_tail = none →
        page_serialize_ops p true = page_serialize_ops p false) ∧
    (∀ (p : jgd_page) (b : List Op), flushedInv p →
        (page_serialize_frame (appendOps p b) true).1 = b ∧
        (page_serialize_frame (appendOps p b) true).2.last_flush_tail =
          (if (appendOps p b).ops.isEmpty then none
           else some (appendOps p b).ops.length)) := by
  refine ⟨?_, ?_, ?_⟩
  · intro w h d bg batches _
    obtain ⟨h1, _, _⟩ := deltaRun_spec batches (page_init w h d bg) (flushedInv_init w h d bg)
    rw [h1]
    show _ = (batches.foldl appendOps (page_init w h d bg)).ops
    rw [foldl_appendOps_ops]
    rfl
  · intro p hp
    simp [page_serialize_ops, hp]
  · intro p b hInv
    exact ⟨(delta_step p b hInv).1, rfl⟩

/-- Witness for C1 at a concrete input: two delta flushes over batches
`[1]` then `[2, 3]` emit together exactly what a full serialization of the
final page emits. -/
theorem C1_delta_full_equivalence_witness :
    (∀ b ∈ [[1], [2, 3]], b ≠ ([] : List Op)) ∧
    (deltaRun (page_init 700 700 96 0) [[1], [2, 3]]).1 =
      page_serialize_ops ([[1], [2, 3]].foldl appendOps (page_init 700 700 96 0)) false :=
  ⟨by decide, C1_delta_full_equivalence.1 700 700 96 0 [[1], [2, 3]] (by decide)⟩

/-! ## Replay lemmas -/
theorem playOps_eq (l : List Op) (st : St) :
    playOps l st = { st with page := { st.page with ops := st.page.ops ++ l } } := by
  induction l generalizing st with
  | nil => simp [playOps]
  | cons x xs ih =>
    show playOps xs (cb_draw x st) = _
    rw [ih]
    simp [cb_draw, page_add_op]

theorem cb_mode_replaying (m : ℕ) (st : St) (h : st.replaying = true) :
    cb_mode m st = st := by
  simp [cb_mode, h]

theorem cb_holdflush_replaying (level : ℤ) (st : St) (h : st.replaying = true) :
    cb_holdflush level st = st := by
  simp [cb_holdflush, h]

theorem check_incoming_of_inbox_nil (st : St) (h : st.inbox = []) :
    check_incoming st = st := by
  unfold check_incoming
  by_cases hb : st.has_buffered_resize
  · rw [if_pos hb]
  · rw [if_neg hb, if_neg (by simp [transport_has_data_msg, h])]

theorem apply_pending_resize_of_none (st : St)
    (h : ¬(0 < st.pending_w ∧ 0 < st.pending_h)) :
    apply_pending_resize st = st := by
  simp [apply_pending_resize, h]

theorem cb_newPage_replaying (fill : Color) (st : St)
    (hrep : st.replaying = true) (hinbox : st.inbox = [])
    (hpend : ¬(0 < st.pending_w ∧ 0 < st.pending_h)) :
    cb_newPage fill st = cb_newPage_begin fill st := by
  unfold cb_newPage
  rw [show cb_newPage_flush st = st by simp [cb_newPage_flush, hrep]]
  rw [show cb_newPage_snap st = st by simp [cb_newPage_snap, hrep]]
  rw [check_incoming_of_inbox_nil st hinbox, apply_pending_resize_of_none st hpend]

theorem GEplayDisplayList_replaying (st : St) (r : RecordedPage)
    (hdl : st.dl = some r) (hrep : st.replaying = true) (hinbox : st.inbox = [])
    (hpend : ¬(0 < st.pending_w ∧ 0 < st.pending_h)) :
    GEplayDisplayList st =
      { cb_newPage_begin r.fill st with
          page := { page_init (st.width * st.dpi) (st.height * st.dpi) st.dpi r.fill with
                      ops := r.ops } } := by
  simp only [GEplayDisplayList, hdl]
  rw [cb_newPage_replaying r.fill st hrep hinbox hpend]
  rw [cb_mode_replaying 1 _ (by simp [cb_newPage_begin, hrep])]
  rw [playOps_eq]
  rw [cb_mode_replaying 0 _ (by simp [cb_newPage_begin, hrep])]
  simp [cb_newPage_begin, page_init]

theorem GEplayDisplayList_of_dl_none (st : St) (hdl : st.dl = none) :
    GEplayDisplayList st = st := by
  simp only [GEplayDisplayList, hdl]

/-- C2: applying a pending current-page resize (positive dimensions, no
history index) suppresses all intermediate frame emission during the
replay and afterwards emits exactly one Full (`incremental := false`)
frame carrying the new width and height and the re-derived operations;
when the page log is empty and the replay re-derives no operations, no
frame at all is emitted. -/
theorem C2_current_resize_replay (st : St)
    (hrep : st.replaying = false) (hbuf : st.has_buffered_resize = false)
    (hinbox : st.inbox = []) (hw : 0 < st.pending_w) (hh : 0 < st.pending_h)
    (hpi : st.pending_plot_index < 0) (hdpi : st.dpi ≠ 0) :
    (∀ r : RecordedPage, st.dl = some r → r.ops ≠ [] →
      (poll_resize_impl st).2.frames = st.frames ++
        [{ incremental := false, newPage := true,
           width := st.pending_w, height := st.pending_h, dpi := st.dpi,
           bg := r.fill, ops := r.ops }]) ∧
    ((st.dl = none ∨ ∃ f, st.dl = some ⟨f, []⟩) → st.page.ops = [] →
      (poll_resize_impl st).2.frames = st.frames) := by
  have hdrain : poll_drain_one st = st := by
    simp [poll_drain_one, hbuf, transport_has_data_msg, hinbox]
  unfold poll_resize_impl
  rw [hdrain, if_pos ⟨hw, hh⟩,
      if_neg (fun hcon => absurd hcon.1 (not_le.mpr hpi))]
  constructor
  · intro r hdl hne
    show (poll_current_branch (poll_apply_dims st)).frames = _
    unfold poll_current_branch
    rw [GEplayDisplayList_replaying _ r (by simp [poll_apply_dims, hdl]) rfl
      (by simp [poll_apply_dims, hinbox]) (by simp [poll_apply_dims])]
    unfold poll_flush_replay
    rw [if_pos (by simpa [cb_newPage_begin, page_init] using List.length_pos.mpr hne)]
    simp [jgd_flush_frame, flush_send, mkFrame, page_serialize_frame,
      page_serialize_ops, cb_newPage_begin, page_init, poll_apply_dims,
      div_mul_cancel₀ _ hdpi]
  · intro hdl hpage
    show (poll_current_branch (poll_apply_dims st)).frames = _
    unfold poll_current_branch
    rcases hdl with hdl | ⟨f, hdl⟩
    · rw [GEplayDisplayList_of_dl_none _ (by simp [poll_apply_dims, hdl])]
      unfold poll_flush_replay
      rw [if_neg (by simp [poll_apply_dims, hpage])]
      simp [poll_apply_dims]
    · rw [GEplayDisplayList_replaying _ ⟨f, []⟩ (by simp [poll_apply_dims, hdl]) rfl
        (by simp [poll_apply_dims, hinbox]) (by simp [poll_apply_dims])]
      unfold poll_flush_replay
      rw [if_neg (by simp [cb_newPage_begin, page_init])]
      simp [cb_newPage_begin, page_init, poll_apply_dims]

theorem page_serialize_ops_full (p : jgd_page) :
    page_serialize_ops p false = p.ops := by
  unfold page_serialize_ops
  split
  · simp_all
  · rfl

/-- A complete (non-incremental) `jgd_flush_frame` outside replay on a
fresh page emits one newPage-tagged Full frame with the page's ops. -/
theorem jgd_flush_complete_eq (st : St) (hnp : st.new_page = true)
    (hrep : st.replaying = false) :
    jgd_flush_frame st false =
      { st with
        page := { st.page with
                    last_flush_tail :=
                      if st.page.ops.isEmpty then none else some st.page.ops.length },
        frames := st.frames ++
          [{ incremental := false, newPage := true, width := st.page.width,
             height := st.page.height, dpi := st.page.dpi, bg := st.page.bg,
             ops := st.page.ops }],
        new_page := false } := by
  unfold jgd_flush_frame
  rw [if_pos (by simp [hnp, hrep])]
  unfold flush_send mkFrame page_serialize_frame
  rw [page_serialize_ops_full]

theorem poll_flush_replay_complete (st : St) (hnp : st.new_page = true)
    (hrep : st.replaying = false)
    (hflushed : st.last_flushed_ops < st.page.ops.length) :
    poll_flush_replay st =
      { st with
        page := { st.page with
                    last_flush_tail :=
                      if st.page.ops.isEmpty then none else some st.page.ops.length },
        frames := st.frames ++
          [{ incremental := false, newPage := true, width := st.page.width,
             height := st.page.height, dpi := st.page.dpi, bg := st.page.bg,
             ops := st.page.ops }],
        new_page := false,
        last_flushed_ops := st.page.ops.length } := by
  unfold poll_flush_replay
  rw [if_pos hflushed, jgd_flush_complete_eq st hnp hrep]

/-- A guarded snapshot replay of a non-empty snapshot re-derives exactly
the snapshot's page: the guard suppresses every flush and snapshot
capture on the way. -/
theorem poll_play_guarded_eq (st : St) (r : RecordedPage)
    (hinbox : st.inbox = []) (hpend : ¬(0 < st.pending_w ∧ 0 < st.pending_h)) :
    poll_play_guarded (some r) st =
      { st with
        dl := some r, hold_level := 0, replaying := false,
        page := { page_init (st.width * st.dpi) (st.height * st.dpi) st.dpi r.fill with
                    ops := r.ops },
        page_count := st.page_count + 1, last_flushed_ops := 0,
        new_page := true } := by
  unfold poll_play_guarded GEplaySnapshot
  rw [GEplayDisplayList_replaying _ r rfl rfl (by simpa using hinbox) (by simpa using hpend)]
  simp [cb_newPage_begin, page_init]

/-- The historical branch of the poll on a valid index: replay the stored
snapshot once (one Full frame), then restore the live page, suppressing
every other emission and every snapshot capture. -/
theorem poll_historical_branch_eq (st : St) (pi : ℕ) (sf cf : Color)
    (sops cops : List Op)
    (hinbox : st.inbox = []) (hpend : ¬(0 < st.pending_w ∧ 0 < st.pending_h))
    (hsnap : st.snapshots.getD pi none = some ⟨sf, sops⟩) (hne : sops ≠ [])
    (hdl : st.dl = some ⟨cf, cops⟩) :
    poll_historical_branch pi st =
      { st with
        dl := some ⟨cf, cops⟩,
        hold_level := 0, replaying := false,
        page := { ops := cops, last_flush_tail := none,
                  width := st.width * st.dpi, height := st.height * st.dpi,
                  dpi := st.dpi, bg := cf },
        page_count := st.page_count + 2,
        last_flushed_ops := cops.length,
        new_page := true,
        frames := st.frames ++
          [{ incremental := false, newPage := true, width := st.width * st.dpi,
             height := st.height * st.dpi, dpi := st.dpi, bg := sf,
             ops := sops }] } := by
  unfold poll_historical_branch
  rw [hsnap]
  rw [poll_play_guarded_eq st ⟨sf, sops⟩ hinbox hpend]
  rw [poll_flush_replay_complete _ rfl rfl
    (by simpa using List.length_pos.mpr hne)]
  rw [show GEcreateSnapshot st = some ⟨cf, cops⟩ from hdl]
  rw [poll_play_guarded_eq _ ⟨cf, cops⟩ (by simpa using hinbox) (by simpa using hpend)]
  simp [page_init]

/-- C3: a resize carrying a history index that resolves to a stored
snapshot replays that snapshot at the new dimensions and emits exactly
one Full frame for it, after which the live page's operations are
restored exactly, with no frame emitted for the restore and no snapshot
captured during either replay. -/
theorem C3_historical_resize_replay (st : St) (sf cf : Color)
    (sops cops : List Op)
    (hinbox : st.inbox = []) (hbuf : st.has_buffered_resize = true)
    (hw : 0 < st.buffered_w) (hh : 0 < st.buffered_h)
    (hpi0 : 0 ≤ st.buffered_plot_index)
    (hlt : st.buffered_plot_index.toNat < st.snapshots.length)
    (hsnap : st.snapshots.getD st.buffered_plot_index.toNat none = some ⟨sf, sops⟩)
    (hne : sops ≠ []) (hdl : st.dl = some ⟨cf, cops⟩)
    (hpage : st.page.ops = cops) (hdpi : st.dpi ≠ 0) :
    (poll_resize_impl st).2.frames = st.frames ++
      [{ incremental := false, newPage := true,
         width := st.buffered_w, height := st.buffered_h, dpi := st.dpi,
         bg := sf, ops := sops }] ∧
    (poll_resize_impl st).2.page.ops = st.page.ops ∧
    (poll_resize_impl st).2.dl = st.dl ∧
    (poll_resize_impl st).2.snapshots = st.snapshots ∧
    (poll_resize_impl st).2.last_snapshot = st.last_snapshot := by
  have hdrain : poll_drain_one st =
      { st with
        pending_w := st.buffered_w, pending_h := st.buffered_h,
        pending_plot_index := st.buffered_plot_index,
        has_buffered_resize := false } := by
    simp [poll_drain_one, hbuf]
  unfold poll_resize_impl
  rw [hdrain]
  rw [if_pos (show 0 < st.buffered_w ∧ 0 < st.buffered_h from ⟨hw, hh⟩)]
  rw [if_pos (show 0 ≤ st.buffered_plot_index ∧ _ from ⟨hpi0, hlt⟩)]
  rw [poll_historical_branch_eq _ _ sf cf sops cops
    (by simpa [poll_apply_dims] using hinbox) (by simp [poll_apply_dims])
    (by simpa [poll_apply_dims] using hsnap) hne
    (by simpa [poll_apply_dims] using hdl)]
  refine ⟨?_, ?_, ?_, ?_, ?_⟩ <;>
    simp [poll_apply_dims, hpage, hdl, div_mul_cancel₀ _ hdpi]

/-! ## Snapshot history eviction (C4) -/
theorem snapshotPushCap_length (cap : ℕ) (hcap : 1 ≤ cap)
    (store : List DisplayList) (s : DisplayList)
    (h : store.length ≤ cap) :
    (snapshotPushCap cap store s).length ≤ cap := by
  unfold snapshotPushCap
  split
  · simp only [List.length_append, List.length_drop, List.length_singleton]
    omega
  · simp only [List.length_append, List.length_singleton]
    omega

theorem snapshotPushCap_foldl (cap : ℕ) (hcap : 1 ≤ cap)
    (l : List DisplayList) :
    ∀ acc : List DisplayList, acc.length ≤ cap →
    l.foldl (snapshotPushCap cap) acc = (acc ++ l).drop ((acc ++ l).length - cap) := by
  induction l with
  | nil =>
    intro acc hacc
    simp [Nat.sub_eq_zero_of_le, hacc]
  | cons s t ih =>
    intro acc hacc
    show t.foldl (snapshotPushCap cap) (snapshotPushCap cap acc s) = _
    by_cases hfull : cap ≤ acc.length
    · have hlen : acc.length = cap := le_antisymm hacc hfull
      have hne : acc ≠ [] := by
        intro hnil; rw [hnil] at hlen; simp at hlen; omega
      have hpush : snapshotPushCap cap acc s = acc.drop 1 ++ [s] := by
        unfold snapshotPushCap; rw [if_pos hfull]
      rw [hpush, ih _ (by simp; omega)]
      have hsplit : (acc.drop 1 ++ [s]) ++ t = (acc ++ s :: t).drop 1 := by
        rw [List.drop_append_of_le_length (by omega)]
        simp
      rw [hsplit, List.drop_drop]
      congr 1
      simp
      omega
    · have hpush : snapshotPushCap cap acc s = acc ++ [s] := by
        unfold snapshotPushCap; rw [if_neg hfull]
      rw [hpush, ih _ (by simp; omega)]
      congr 1
      · simp
      · simp

theorem cb_newPage_flush_fields (st : St) :
    (cb_newPage_flush st).snapshots = st.snapshots ∧
    (cb_newPage_flush st).page_count = st.page_count ∧
    (cb_newPage_flush st).replaying = st.replaying ∧
    (cb_newPage_flush st).last_snapshot = st.last_snapshot := by
  unfold cb_newPage_flush jgd_flush_frame flush_send
  repeat' split
  all_goals simp

/-- `check_incoming` only ever reads at most one message and only writes
the pending/buffered resize fields. -/
theorem check_incoming_shape (st : St) :
    ∃ (ib : List Msg) (hb : Bool) (bw bh : ℚ) (bpi : ℤ) (pw ph : ℚ),
      (ib = st.inbox ∨ st.inbox.length = ib.length + 1) ∧
      check_incoming st =
        { st with inbox := ib, has_buffered_resize := hb, buffered_w := bw,
                  buffered_h := bh, buffered_plot_index := bpi,
                  pending_w := pw, pending_h := ph } := by
  unfold check_incoming
  split
  · exact ⟨st.inbox, st.has_buffered_resize, st.buffered_w, st.buffered_h,
      st.buffered_plot_index, st.pending_w, st.pending_h, Or.inl rfl, rfl⟩
  · split
    · split
      · exact ⟨st.inbox, st.has_buffered_resize, st.buffered_w, st.buffered_h,
          st.buffered_plot_index, st.pending_w, st.pending_h, Or.inl rfl, rfl⟩
      · rename_i m rest heq
        dsimp only
        split
        · rename_i w h hparse
          split
          · exact ⟨rest, true, w, h, (jgd_try_parse_resize m).2,
              st.pending_w, st.pending_h, Or.inr (by rw [heq]; rfl), rfl⟩
          · exact ⟨rest, st.has_buffered_resize, st.buffered_w, st.buffered_h,
              st.buffered_plot_index, w, h, Or.inr (by rw [heq]; rfl), rfl⟩
        · exact ⟨rest, st.has_buffered_resize, st.buffered_w, st.buffered_h,
            st.buffered_plot_index, st.pending_w, st.pending_h,
            Or.inr (by rw [heq]; rfl), rfl⟩
    · exact ⟨st.inbox, st.has_buffered_resize, st.buffered_w, st.buffered_h,
        st.buffered_plot_index, st.pending_w, st.pending_h, Or.inl rfl, rfl⟩

theorem check_incoming_fields (st : St) :
    (check_incoming st).snapshots = st.snapshots ∧
    (check_incoming st).frames = st.frames ∧
    (check_incoming st).page = st.page ∧
    (check_incoming st).page_count = st.page_count ∧
    (check_incoming st).last_snapshot = st.last_snapshot ∧
    (check_incoming st).replaying = st.replaying ∧
    (check_incoming st).last_flushed_ops = st.last_flushed_ops ∧
    (check_incoming st).width = st.width ∧
    (check_incoming st).height = st.height ∧
    (check_incoming st).dpi = st.dpi ∧
    (check_incoming st).connected = st.connected ∧
    (check_incoming st).mcache = st.mcache := by
  obtain ⟨ib, hb, bw, bh, bpi, pw, ph, _, heq⟩ := check_incoming_shape st
  rw [heq]
  exact ⟨rfl, rfl, rfl, rfl, rfl, rfl, rfl, rfl, rfl, rfl, rfl, rfl⟩

theorem apply_pending_resize_fields (st : St) :
    (apply_pending_resize st).snapshots = st.snapshots ∧
    (apply_pending_resize st).frames = st.frames ∧
    (apply_pending_resize st).page = st.page ∧
    (apply_pending_resize st).inbox = st.inbox := by
  unfold apply_pending_resize
  split
  all_goals simp

/-- C4: the snapshot history holds at most `JGD_MAX_SNAPSHOTS = 50`
entries; committing a snapshot to a full history evicts index 0 and
shifts every remaining entry down by one, so after capturing capacity+1
pages index 0 resolves to the second page captured (and with capacity 2,
capturing P1, P2, P3 leaves [P2, P3] with index 0 resolving to P2);
`cb_newPage` commits `last_snapshot` through exactly this push. -/
theorem C4_snapshot_eviction :
    (∀ (store : List DisplayList) (s : DisplayList),
        store.length ≤ JGD_MAX_SNAPSHOTS →
        (snapshotPush store s).length ≤ JGD_MAX_SNAPSHOTS) ∧
    (∀ (store : List DisplayList) (s : DisplayList),
        store.length = JGD_MAX_SNAPSHOTS →
        snapshotPush store s = store.drop 1 ++ [s]) ∧
    (∀ l : List DisplayList, l.length = JGD_MAX_SNAPSHOTS + 1 →
        l.foldl snapshotPush [] = l.drop 1 ∧
        (l.foldl snapshotPush [])[0]? = l[1]?) ∧
    (∀ P1 P2 P3 : DisplayList,
        [P1, P2, P3].foldl (snapshotPushCap 2) [] = [P2, P3] ∧
        ([P1, P2, P3].foldl (snapshotPushCap 2) [])[0]? = some P2) ∧
    (∀ (st : St) (s : DisplayList) (fill : Color),
        0 < st.page_count → st.replaying = false → st.last_snapshot = some s →
        (cb_newPage fill st).snapshots = snapshotPush st.snapshots s) := by
  refine ⟨?_, ?_, ?_, ?_, ?_⟩
  · intro store s h
    exact snapshotPushCap_length JGD_MAX_SNAPSHOTS (by norm_num [JGD_MAX_SNAPSHOTS]) store s h
  · intro store s h
    unfold snapshotPush snapshotPushCap
    rw [if_pos (le_of_eq h.symm)]
  · intro l hl
    have h := snapshotPushCap_foldl JGD_MAX_SNAPSHOTS
      (by norm_num [JGD_MAX_SNAPSHOTS]) l [] (by simp)
    have h2 : l.foldl snapshotPush [] = l.drop 1 := by
      rw [show l.foldl snapshotPush [] = l.foldl (snapshotPushCap JGD_MAX_SNAPSHOTS) [] from rfl,
        h]
      simp [hl, JGD_MAX_SNAPSHOTS]
    refine ⟨h2, ?_⟩
    rw [h2, List.getElem?_drop]
  · intro P1 P2 P3
    have h := snapshotPushCap_foldl 2 (by norm_num) [P1, P2, P3] [] (by simp)
    constructor
    · rw [h]; rfl
    · rw [h]; rfl
  · intro st s fill hpc hrep hsnap
    unfold cb_newPage cb_newPage_begin
    obtain ⟨hf1, hf2, hf3, hf4⟩ := cb_newPage_flush_fields st
    have hap := (apply_pending_resize_fields
      (check_incoming (cb_newPage_snap (cb_newPage_flush st)))).1
    have hci := (check_incoming_fields (cb_newPage_snap (cb_newPage_flush st))).1
    show (apply_pending_resize
      (check_incoming (cb_newPage_snap (cb_newPage_flush st)))).snapshots = _
    rw [hap, hci]
    unfold cb_newPage_snap
    rw [if_pos ⟨by omega, by simp [hf3, hrep]⟩]
    rw [hf4, hsnap]
    simp [hf1]

/-- Witness for C4: with capacity 2, capturing three distinct snapshots
leaves the last two, and index 0 resolves to the second capture. -/
theorem C4_snapshot_eviction_witness :
    [some ⟨1, [1]⟩, some ⟨2, [2]⟩, some ⟨3, [3]⟩].foldl (snapshotPushCap 2) [] =
      [some ⟨2, [2]⟩, some ⟨3, [3]⟩] ∧
    ([some ⟨1, [1]⟩, some ⟨2, [2]⟩, some ⟨3, [3]⟩].foldl (snapshotPushCap 2) [])[0]? =
      some (some ⟨2, [2]⟩) :=
  C4_snapshot_eviction.2.2.2.1 (some ⟨1, [1]⟩) (some ⟨2, [2]⟩) (some ⟨3, [3]⟩)

/-! ## Inbound message consumption bounds (C5) -/
theorem jgd_flush_frame_inbox (st : St) (incr : Bool) :
    (jgd_flush_frame st incr).inbox = st.inbox := by
  unfold jgd_flush_frame flush_send
  split <;> rfl

theorem cb_mode_inbox (m : ℕ) (st : St) : (cb_mode m st).inbox = st.inbox := by
  unfold cb_mode cb_mode_flush
  repeat' split
  all_goals simp [jgd_flush_frame_inbox]

theorem playOps_inbox (l : List Op) (st : St) : (playOps l st).inbox = st.inbox := by
  rw [playOps_eq]

theorem cb_newPage_flush_inbox (st : St) :
    (cb_newPage_flush st).inbox = st.inbox := by
  unfold cb_newPage_flush
  split
  · exact jgd_flush_frame_inbox st false
  · rfl

theorem cb_newPage_snap_inbox (st : St) :
    (cb_newPage_snap st).inbox = st.inbox := by
  unfold cb_newPage_snap
  repeat' split
  all_goals rfl

/-- The inbound check before starting a new page reads at most one
message. -/
theorem check_incoming_inbox_len (st : St) :
    st.inbox.length ≤ (check_incoming st).inbox.length + 1 := by
  obtain ⟨ib, hb, bw, bh, bpi, pw, ph, hor, heq⟩ := check_incoming_shape st
  rw [heq]
  rcases hor with hor | hor
  · simp [hor]
  · simp [hor]

theorem cb_newPage_inbox_len (fill : Color) (st : St) :
    st.inbox.length ≤ (cb_newPage fill st).inbox.length + 1 := by
  unfold cb_newPage cb_newPage_begin
  have h1 : (apply_pending_resize
      (check_incoming (cb_newPage_snap (cb_newPage_flush st)))).inbox =
      (check_incoming (cb_newPage_snap (cb_newPage_flush st))).inbox :=
    (apply_pending_resize_fields _).2.2.2
  have h2 := check_incoming_inbox_len (cb_newPage_snap (cb_newPage_flush st))
  rw [cb_newPage_snap_inbox, cb_newPage_flush_inbox] at h2
  show st.inbox.length ≤ (apply_pending_resize
      (check_incoming (cb_newPage_snap (cb_newPage_flush st)))).inbox.length + 1
  rw [h1]
  omega

theorem GEplayDisplayList_inbox_len (st : St) :
    st.inbox.length ≤ (GEplayDisplayList st).inbox.length + 1 := by
  unfold GEplayDisplayList
  split
  · omega
  · rename_i r heq
    rw [cb_mode_inbox, playOps_inbox, cb_mode_inbox]
    exact cb_newPage_inbox_len r.fill st

theorem poll_play_guarded_inbox_len (snap : DisplayList) (st : St) :
    st.inbox.length ≤ (poll_play_guarded snap st).inbox.length + 1 := by
  unfold poll_play_guarded GEplaySnapshot
  exact GEplayDisplayList_inbox_len
    { st with dl := snap, replaying := true, hold_level := 100 }

theorem poll_flush_replay_inbox (st : St) :
    (poll_flush_replay st).inbox = st.inbox := by
  unfold poll_flush_replay
  split
  · exact jgd_flush_frame_inbox st false
  · rfl

theorem poll_historical_branch_inbox_len (pi : ℕ) (st : St) :
    st.inbox.length ≤ (poll_historical_branch pi st).inbox.length + 2 := by
  have h1 := poll_play_guarded_inbox_len (st.snapshots.getD pi none) st
  have h2 := poll_play_guarded_inbox_len (GEcreateSnapshot st)
    (poll_flush_replay (poll_play_guarded (st.snapshots.getD pi none) st))
  have h3 := poll_flush_replay_inbox (poll_play_guarded (st.snapshots.getD pi none) st)
  have h4 : (poll_historical_branch pi st).inbox =
      (poll_play_guarded (GEcreateSnapshot st)
        (poll_flush_replay (poll_play_guarded (st.snapshots.getD pi none) st))).inbox := rfl
  rw [h4]
  rw [h3] at h2
  omega

theorem poll_current_branch_inbox_len (st : St) :
    st.inbox.length ≤ (poll_current_branch st).inbox.length + 1 := by
  unfold poll_current_branch
  rw [poll_flush_replay_inbox]
  have h := GEplayDisplayList_inbox_len { st with replaying := true }
  have h2 : ({ GEplayDisplayList { st with replaying := true } with
      replaying := false } : St).inbox =
      (GEplayDisplayList { st with replaying := true }).inbox := rfl
  rw [h2]
  exact h

theorem poll_drain_one_inbox_len (st : St) :
    st.inbox.length ≤ (poll_drain_one st).inbox.length + 1 := by
  unfold poll_drain_one
  split
  · simp
  · split
    · split
      · simp
      · rename_i m rest heq
        dsimp only
        repeat' split
        all_goals simp [heq]
    · simp

theorem poll_resize_impl_inbox_len (st : St) :
    st.inbox.length ≤ (poll_resize_impl st).2.inbox.length + 3 := by
  have hd := poll_drain_one_inbox_len st
  unfold poll_resize_impl
  split
  · split
    · have hh := poll_historical_branch_inbox_len
        (poll_drain_one st).pending_plot_index.toNat (poll_apply_dims (poll_drain_one st))
      have he : (poll_apply_dims (poll_drain_one st)).inbox = (poll_drain_one st).inbox := rfl
      rw [he] at hh
      show st.inbox.length ≤ (poll_historical_branch
        (poll_drain_one st).pending_plot_index.toNat
        (poll_apply_dims (poll_drain_one st))).inbox.length + 3
      omega
    · have hc := poll_current_branch_inbox_len (poll_apply_dims (poll_drain_one st))
      have he : (poll_apply_dims (poll_drain_one st)).inbox = (poll_drain_one st).inbox := rfl
      rw [he] at hc
      show st.inbox.length ≤
        (poll_current_branch (poll_apply_dims (poll_drain_one st))).inbox.length + 3
      omega
  · show st.inbox.length ≤ (poll_drain_one st).inbox.length + 3
    omega

/-- C5 (amended): the poll's own drain step and the inbound check before
a new page each consume at most one message, but a poll call that applies
a resize replays pages whose `cb_newPage` runs the inbound check again:
one poll call can consume up to three messages in total (one direct read
plus one per replayed page). -/
theorem C5_poll_reads_bounded :
    (∀ st : St, st.inbox.length ≤ (check_incoming st).inbox.length + 1) ∧
    (∀ st : St, st.inbox.length ≤ (poll_drain_one st).inbox.length + 1) ∧
    (∀ (st : St) (fill : Color),
        st.inbox.length ≤ (cb_newPage fill st).inbox.length + 1) ∧
    (∀ st : St, st.inbox.length ≤ (poll_resize_impl st).2.inbox.length + 3) :=
  ⟨check_incoming_inbox_len, poll_drain_one_inbox_len,
    fun st fill => cb_newPage_inbox_len fill st, poll_resize_impl_inbox_len⟩

/-- Witness for C3: a buffered historical resize to 800×600 at index 0
replays the stored two-op snapshot as one Full frame and restores the
live page's three operations. -/
theorem C3_historical_resize_replay_witness :
    C3st.has_buffered_resize = true ∧
    C3st.snapshots.getD 0 none = some ⟨9, [4, 5]⟩ ∧
    (poll_resize_impl C3st).2.frames =
      [{ incremental := false, newPage := true, width := 800, height := 600,
         dpi := 1, bg := 9, ops := [4, 5] }] ∧
    (poll_resize_impl C3st).2.page.ops = C3st.page.ops ∧
    (poll_resize_impl C3st).2.snapshots = C3st.snapshots :=
  ⟨rfl, rfl,
    by
      have h := C3_historical_resize_replay C3st 9 255 [4, 5] [1, 2, 3]
        rfl rfl (by norm_num [C3st, baseSt]) (by norm_num [C3st, baseSt])
        (by decide) (by decide) (by decide) (by decide) rfl rfl
        (by norm_num [C3st, baseSt])
      exact h.1.trans (by norm_num [C3st, baseSt]),
    by
      have h := C3_historical_resize_replay C3st 9 255 [4, 5] [1, 2, 3]
        rfl rfl (by norm_num [C3st, baseSt]) (by norm_num [C3st, baseSt])
        (by decide) (by decide) (by decide) (by decide) rfl rfl
        (by norm_num [C3st, baseSt])
      exact h.2.1,
    by
      have h := C3_historical_resize_replay C3st 9 255 [4, 5] [1, 2, 3]
        rfl rfl (by norm_num [C3st, baseSt]) (by norm_num [C3st, baseSt])
        (by decide) (by decide) (by decide) (by decide) rfl rfl
        (by norm_num [C3st, baseSt])
      exact h.2.2.2.1⟩

/-- Counterexample for C5 as stated: with two queued resize messages and
a non-empty display list, a single `poll_resize_impl` call consumes both
messages — the direct read takes the first, and the inbound check run by
`cb_newPage` during the replay takes the second. -/
theorem C5_counterexample :
    C5st.inbox.length = 2 ∧ (poll_resize_impl C5st).2.inbox = [] ∧
    ¬(C5st.inbox.length ≤ (poll_resize_impl C5st).2.inbox.length + 1) := by
  decide

/-! ## Out-of-range historical index (C9) -/
/-- C9 (amended): retrieving a snapshot at an index at or beyond the
current count fails (`none`, the OutOfRange case), and a pending resize
whose history index is at or beyond the count never replays a stored
page — but it is not rejected: `poll_resize_impl` treats it exactly like
a resize with no history index and applies it to the current page. -/
theorem C9_out_of_range_index :
    (∀ (st : St) (i : ℕ), st.snapshots.length ≤ i → st.snapshots[i]? = none) ∧
    (∀ st : St, st.has_buffered_resize = false → st.inbox = [] →
      0 < st.pending_w → 0 < st.pending_h →
      (st.snapshots.length : ℤ) ≤ st.pending_plot_index →
      poll_resize_impl st = poll_resize_impl { st with pending_plot_index := -1 }) := by
  constructor
  · intro st i h
    exact List.getElem?_eq_none h
  · intro st hbuf hinbox hw hh hpi
    have hd1 : poll_drain_one st = st := by
      simp [poll_drain_one, hbuf, transport_has_data_msg, hinbox]
    have hd2 : poll_drain_one { st with pending_plot_index := -1 } =
        { st with pending_plot_index := -1 } := by
      simp [poll_drain_one, hbuf, transport_has_data_msg, hinbox]
    unfold poll_resize_impl
    rw [hd1, hd2]
    rw [if_pos ⟨hw, hh⟩, if_pos (show (0:ℚ) < _ ∧ (0:ℚ) < _ from ⟨hw, hh⟩)]
    rw [if_neg (by intro hcon; omega), if_neg (by intro hcon; exact absurd hcon.1 (by norm_num))]
    rfl

/-- Counterexample for C9 as stated: with an empty snapshot history, a
resize carrying history index 0 (out of range) is applied — the current
page is replayed and a Full frame at the new 800×600 dimensions is
emitted — rather than rejected. -/
theorem C9_counterexample :
    C9st.snapshots.length = 0 ∧ C9st.pending_plot_index = 0 ∧
    (poll_resize_impl C9st).2.frames =
      [{ incremental := false, newPage := true, width := 800, height := 600,
         dpi := 1, bg := 255, ops := [7] }] := by
  refine ⟨rfl, rfl, ?_⟩
  have hdrain : poll_drain_one C9st = C9st := by
    simp [poll_drain_one, C9st, baseSt, transport_has_data_msg]
  unfold poll_resize_impl
  rw [hdrain, if_pos (by norm_num [C9st, baseSt]), if_neg (by decide)]
  show (poll_current_branch (poll_apply_dims C9st)).frames = _
  unfold poll_current_branch
  rw [GEplayDisplayList_replaying _ ⟨255, [7]⟩
    (by simp [poll_apply_dims, C9st, baseSt]) rfl
    (by simp [poll_apply_dims, C9st, baseSt]) (by simp [poll_apply_dims])]
  unfold poll_flush_replay
  rw [if_pos (by simp [cb_newPage_begin, page_init])]
  simp [jgd_flush_frame, flush_send, mkFrame, page_serialize_frame,
    page_serialize_ops, cb_newPage_begin, page_init, poll_apply_dims,
    C9st, baseSt]

/-- Witness for C9 at a concrete input. -/
theorem C9_out_of_range_index_witness :
    (C9wst.snapshots.length : ℤ) ≤ C9wst.pending_plot_index ∧
    C9wst.snapshots[0]? = none ∧
    poll_resize_impl C9wst = poll_resize_impl { C9wst with pending_plot_index := -1 } :=
  ⟨by decide, C9_out_of_range_index.1 C9wst 0 (by decide),
    C9_out_of_range_index.2 C9wst rfl rfl (by norm_num [C9wst, baseSt])
      (by norm_num [C9wst, baseSt]) (by decide)⟩

/-! ## C6: direct-mapped cache trusted by hash equality only -/
/-- C6: on a connected transport, a metrics query whose hash matches the
occupied slot `hash % table_size` returns the cached value with no
secondary key comparison and no transport I/O (the state, including the
inbox and the sent-request trace, is unchanged); two distinct keys with
equal hashes therefore receive the same result; and every successful
remote response is stored into the slot for its hash before the query
returns. -/
theorem C6_metrics_cache_hash_trust :
    (∀ (st : St) (str : List ℕ) (gc : GCFont) (e : McEntry),
        st.connected = true →
        mcache_lookup (mcache_hash str gc) st.mcache = some e →
        cb_strWidth str gc st = (e.v1, st)) ∧
    (∀ (st : St) (s1 s2 : List ℕ) (g1 g2 : GCFont) (e : McEntry),
        st.connected = true →
        mcache_hash s1 g1 = mcache_hash s2 g2 →
        mcache_lookup (mcache_hash s1 g1) st.mcache = some e →
        cb_strWidth s1 g1 st = cb_strWidth s2 g2 st) ∧
    (∀ (st st1 : St) (str : List ℕ) (gc : GCFont) (w : ℚ),
        st.connected = true →
        mcache_lookup (mcache_hash str gc) st.mcache = none →
        recv_metrics_response 5 (metrics_send_request str gc st) = (some w, st1) →
        0 < w →
        cb_strWidth str gc st =
          (w, { st1 with
                mcache := mcache_store (mcache_hash str gc) w 0 0 st1.mcache }) ∧
        (cb_strWidth str gc st).2.mcache (mcache_hash str gc % MCACHE_SIZE) =
          { hash := mcache_hash str gc, v1 := w, v2 := 0, v3 := 0,
            occupied := true }) := by
  have hit : ∀ (st : St) (str : List ℕ) (gc : GCFont) (e : McEntry),
      st.connected = true →
      mcache_lookup (mcache_hash str gc) st.mcache = some e →
      cb_strWidth str gc st = (e.v1, st) := by
    intro st str gc e hconn hlook
    simp [cb_strWidth, hconn, hlook]
  refine ⟨hit, ?_, ?_⟩
  · intro st s1 s2 g1 g2 e hconn hhash hlook
    rw [hit st s1 g1 e hconn hlook,
        hit st s2 g2 e hconn (by rw [← hhash]; exact hlook)]
  · intro st st1 str gc w hconn hlook hrecv hw
    have hcb : cb_strWidth str gc st =
        (w, { st1 with
              mcache := mcache_store (mcache_hash str gc) w 0 0 st1.mcache }) := by
      simp [cb_strWidth, hconn, hlook, hrecv, hw]
    refine ⟨hcb, ?_⟩
    rw [hcb]
    show mcache_store (mcache_hash str gc) w 0 0 st1.mcache
        (mcache_hash str gc % MCACHE_SIZE) = _
    unfold mcache_store
    rw [if_pos rfl]

/-- Witness for C6 at a concrete input: a cache hit returns the stored
width with the state unchanged. -/
theorem C6_metrics_cache_hash_trust_witness :
    C6cacheSt.connected = true ∧
    cb_strWidth C6str C6gc C6cacheSt = (42, C6cacheSt) :=
  ⟨rfl,
    C6_metrics_cache_hash_trust.1 C6cacheSt C6str C6gc
      { hash := mcache_hash C6str C6gc, v1 := 42, v2 := 0, v3 := 0,
        occupied := true }
      rfl (by rw [mcache_lookup, if_pos ⟨rfl, rfl⟩]; rfl)⟩

/-! ## C7: fallback to the local approximation -/
theorem recv_metrics_response_none (fuel : ℕ) :
    ∀ st : St,
    (∀ m ∈ st.inbox.take fuel, ∀ w : ℚ, m ≠ Msg.metricsResponse w) →
    (recv_metrics_response fuel st).1 = none := by
  induction fuel with
  | zero => intro st _; rfl
  | succ n ih =>
    intro st h
    unfold recv_metrics_response
    rcases hib : st.inbox with _ | ⟨m, rest⟩
    · rfl
    · have htail : ∀ m' ∈ rest.take n, ∀ w : ℚ, m' ≠ Msg.metricsResponse w := by
        intro m' hm' w
        exact h m' (by rw [hib, List.take_succ_cons]; exact List.mem_cons_of_mem m hm') w
      rcases m with ⟨mw, mh, mpi⟩ | mw | _
      · simp only
        split
        · rcases mpi with _ | i
          · exact ih _ (by simpa using htail)
          · exact ih _ (by simpa using htail)
        · exact ih _ (by simpa using htail)
      · exact absurd rfl (h (Msg.metricsResponse mw)
          (by rw [hib, List.take_succ_cons]; exact List.mem_cons_self _ _) mw)
      · exact ih _ (by simpa using htail)

/-- C7: a string-width query on a disconnected transport returns the
deterministic local approximation with no state change; on a connected
transport, if no metrics response arrives within the five-read budget
(timeout, interleaved non-response traffic, or budget exhaustion), or the
first response is malformed (non-positive width), the query also returns
the local approximation — it never raises and, being a total function,
never blocks. -/
theorem C7_metrics_local_fallback :
    (∀ (st : St) (str : List ℕ) (gc : GCFont),
        st.connected = false →
        cb_strWidth str gc st = (metrics_str_width str gc st.dpi, st)) ∧
    (∀ (st : St) (str : List ℕ) (gc : GCFont),
        st.connected = true →
        mcache_lookup (mcache_hash str gc) st.mcache = none →
        (∀ m ∈ st.inbox.take 5, ∀ w : ℚ, m ≠ Msg.metricsResponse w) →
        (cb_strWidth str gc st).1 = metrics_str_width str gc st.dpi) ∧
    (∀ (st : St) (str : List ℕ) (gc : GCFont) (w : ℚ) (rest : List Msg),
        st.connected = true →
        mcache_lookup (mcache_hash str gc) st.mcache = none →
        st.inbox = Msg.metricsResponse w :: rest → w ≤ 0 →
        (cb_strWidth str gc st).1 = metrics_str_width str gc st.dpi) := by
  refine ⟨?_, ?_, ?_⟩
  · intro st str gc hconn
    unfold cb_strWidth
    rw [if_pos hconn]
  · intro st str gc hconn hlook hnone
    rcases hr : recv_metrics_response 5 (metrics_send_request str gc st) with ⟨ow, st1⟩
    have hrecv := recv_metrics_response_none 5 (metrics_send_request str gc st)
      (by simpa [metrics_send_request] using hnone)
    rw [hr] at hrecv
    simp only at hrecv
    subst hrecv
    simp [cb_strWidth, hconn, hlook, hr]
  · intro st str gc w rest hconn hlook hib hw
    have hrecv : recv_metrics_response 5 (metrics_send_request str gc st) =
        (some w, { metrics_send_request str gc st with inbox := rest }) := by
      simp [recv_metrics_response, metrics_send_request, hib]
    simp [cb_strWidth, hconn, hlook, hrecv, not_lt.mpr hw]

/-- Witness for C7: the concrete scenario — `"Hi"` at 12 pt in the
default sans family, no cached entry, disconnected transport — returns
the local approximation `2 × 0.53 × 16 = 424/25` device units. -/
theorem C7_metrics_local_fallback_witness :
    C7st.connected = false ∧
    cb_strWidth C6str C6gc C7st = (metrics_str_width C6str C6gc 96, C7st) ∧
    metrics_str_width C6str C6gc 96 = 424 / 25 := by
  have havg : avg_char_width "" 1 = 0.53 := by
    unfold avg_char_width
    rw [if_neg (by decide), if_neg (by decide), if_neg (by decide)]
  have hn : utf8_nchars C6str = 2 := by decide
  refine ⟨rfl, ?_, ?_⟩
  · exact C7_metrics_local_fallback.1 C7st C6str C6gc rfl
  · rw [metrics_str_width, hn]
    show (2 : ℚ) * avg_char_width C6gc.family C6gc.face * font_size_device C6gc 96 = _
    rw [show C6gc.family = "" from rfl, show C6gc.face = 1 from rfl, havg]
    unfold font_size_device
    norm_num [C6gc]

theorem C2_current_resize_replay_witness :
    (0 : ℚ) < C2st.pending_w ∧ (0 : ℚ) < C2st.pending_h ∧
    C2st.pending_plot_index < 0 ∧
    (poll_resize_impl C2st).2.frames =
      [{ incremental := false, newPage := true, width := 800, height := 600,
         dpi := 1, bg := 255, ops := [1, 2, 3] }] :=
  ⟨by norm_num [C2st, baseSt], by norm_num [C2st, baseSt], by decide,
    by
      have h := (C2_current_resize_replay C2st
        rfl rfl rfl (by norm_num [C2st, baseSt]) (by norm_num [C2st, baseSt])
        (by decide) (by norm_num [C2st, baseSt])).1
        ⟨255, [1, 2, 3]⟩ rfl (by decide)
      simpa [C2st, baseSt] using h⟩

/-- Counterexample for C8 as stated: the serializer emits the coordinate
`1/3` unchanged, and `1/3` is not a 4-fractional-digit decimal, so finite
values are not formatted as fixed-precision 4-digit decimals. -/
theorem C8_counterexample :
    cb_line_numbers (.val (1/3)) (.val 0) (.val 0) (.val 0) =
      [.num (1/3), .num 0, .num 0, .num 0] ∧
    ¬ is_fixed4 (JVal.num (1/3)) := by
  refine ⟨rfl, ?_⟩
  rintro ⟨n, hn⟩
  have h : (10000 : ℚ) = (n : ℚ) * 3 := by
    field_simp at hn
    linarith
  have h2 : (10000 : ℤ) = n * 3 := by exact_mod_cast h
  omega

theorem findIdx?_newline_aux (pre post : List ℕ) (hpre : ∀ b ∈ pre, b ≠ 10) :
    ∀ i : ℕ,
    List.findIdx? (fun b => b == 10) (pre ++ 10 :: post) i = some (i + pre.length) := by
  induction pre with
  | nil =>
    intro i
    rw [List.nil_append, List.findIdx?_cons]
    simp
  | cons a as ih =>
    intro i
    rw [List.cons_append, List.findIdx?_cons,
      if_neg (by simp [hpre a (List.mem_cons_self a as)])]
    rw [ih (fun b hb => hpre b (List.mem_cons_of_mem a hb)) (i + 1)]
    congr 1
    simp
    omega

theorem findIdx?_newline (pre post : List ℕ) (hpre : ∀ b ∈ pre, b ≠ 10) :
    (pre ++ 10 :: post).findIdx? (fun b => b == 10) = some pre.length := by
  simpa using findIdx?_newline_aux pre post hpre 0

theorem findIdx?_no_newline (l : List ℕ) (h : ∀ b ∈ l, b ≠ 10) :
    l.findIdx? (fun b => b == 10) = none := by
  rw [List.findIdx?_eq_none_iff]
  intro x hx
  simp [h x hx]

/-- C10: (1) if inbound bytes fill the internal read buffer completely
without containing a newline, `transport_recv_line` discards all buffered
bytes, marks the transport disconnected and returns an error — a single
over-long inbound line silently disconnects the transport instead of
being delivered; (2) a complete buffered line that exceeds the caller's
buffer is truncated to its first `bufsize − 1` bytes while the whole
line, newline included, is consumed. -/
theorem C10_recv_line_overflow_and_truncation :
    (∀ (cap bufsize : ℕ) (t : Transport),
        t.connected = true → 0 < bufsize →
        t.readbuf.length ≤ cap → t.stream ≠ [] →
        cap ≤ t.readbuf.length + t.stream.length →
        (∀ b ∈ (t.readbuf ++ t.stream).take cap, b ≠ 10) →
        (transport_recv_line cap bufsize t).1 = none ∧
        (transport_recv_line cap bufsize t).2.readbuf = [] ∧
        (transport_recv_line cap bufsize t).2.connected = false) ∧
    (∀ (cap bufsize : ℕ) (t : Transport) (pre post : List ℕ),
        t.connected = true → 0 < bufsize →
        t.readbuf = pre ++ 10 :: post → (∀ b ∈ pre, b ≠ 10) →
        bufsize ≤ pre.length →
        transport_recv_line cap bufsize t =
          (some (pre.take (bufsize - 1)), { t with readbuf := post })) := by
  constructor
  · intro cap bufsize t hconn hbuf hlen hs hfill hnonl
    have hnorb : ∀ b ∈ t.readbuf, b ≠ 10 := by
      intro b hb
      refine hnonl b ?_
      rw [List.take_append_eq_append_take, List.take_of_length_le hlen]
      exact List.mem_append_left _ hb
    have hext : readbuf_extract_line bufsize t = (none, t) := by
      unfold readbuf_extract_line
      rw [if_neg (by omega), findIdx?_no_newline _ hnorb]
    have hfull : t.readbuf ++ t.stream.take (cap - t.readbuf.length) =
        (t.readbuf ++ t.stream).take cap := by
      rw [List.take_append_eq_append_take, List.take_of_length_le hlen]
    have hfulllen : ((t.readbuf ++ t.stream).take cap).length = cap := by
      simp
      omega
    rcases hsfuel : t.stream with _ | ⟨b0, srest⟩
    · exact absurd hsfuel hs
    · have hslen : t.stream.length = srest.length + 1 := by rw [hsfuel]; rfl
      unfold transport_recv_line
      rw [if_neg (by simp [hconn]), hext]
      rw [if_neg (by simp [hsfuel])]
      rw [hslen]
      by_cases hspace : cap - t.readbuf.length = 0
      · -- buffer already full on entry
        unfold recvLoop
        rw [if_pos hspace]
        exact ⟨rfl, rfl, rfl⟩
      · unfold recvLoop
        rw [if_neg hspace, if_neg (by simp [hsfuel])]
        have hext2 : readbuf_extract_line bufsize
            { t with readbuf := t.readbuf ++ t.stream.take (cap - t.readbuf.length),
                     stream := t.stream.drop (cap - t.readbuf.length) } =
            (none, { t with
              readbuf := t.readbuf ++ t.stream.take (cap - t.readbuf.length),
              stream := t.stream.drop (cap - t.readbuf.length) }) := by
          unfold readbuf_extract_line
          rw [if_neg (by omega)]
          rw [show (t.readbuf ++ t.stream.take (cap - t.readbuf.length)) =
            (t.readbuf ++ t.stream).take cap from hfull]
          rw [findIdx?_no_newline _ hnonl]
        rw [hext2]
        unfold recvLoop
        rw [if_pos (by
          show cap - (t.readbuf ++ t.stream.take (cap - t.readbuf.length)).length = 0
          rw [hfull, hfulllen]
          omega)]
        exact ⟨rfl, rfl, rfl⟩
  · intro cap bufsize t pre post hconn hbuf hrb hpre hlong
    have hmin : min pre.length (bufsize - 1) = bufsize - 1 := by omega
    have htake : (pre ++ 10 :: post).take (bufsize - 1) =
        pre.take (bufsize - 1) := by
      rw [List.take_append_eq_append_take,
        Nat.sub_eq_zero_of_le (by omega : bufsize - 1 ≤ pre.length)]
      simp
    have hdrop : (pre ++ 10 :: post).drop (pre.length + 1) = post := by
      rw [show pre ++ 10 :: post = (pre ++ [10]) ++ post by simp,
        show pre.length + 1 = (pre ++ [10]).length by simp]
      exact List.drop_left _ _
    have hext : readbuf_extract_line bufsize t =
        (some (pre.take (bufsize - 1)), { t with readbuf := post }) := by
      unfold readbuf_extract_line
      rw [if_neg (by omega), hrb, findIdx?_newline pre post hpre]
      dsimp only
      rw [hmin, htake, hdrop]
    unfold transport_recv_line
    rw [if_neg (by simp [hconn]), hext]

/-- Witness for C10 at concrete inputs: a 4-byte buffer fed 5 newline-free
bytes disconnects and discards; a 3-byte line read into a caller buffer of
size 3 returns only the first 2 bytes and consumes the whole line. -/
theorem C10_recv_line_overflow_and_truncation_witness :
    ((transport_recv_line 4 8 C10over).1 = none ∧
     (transport_recv_line 4 8 C10over).2.readbuf = [] ∧
     (transport_recv_line 4 8 C10over).2.connected = false) ∧
    transport_recv_line 4 3 C10trunc =
      (some [65, 66], { C10trunc with readbuf := [68] }) :=
  ⟨C10_recv_line_overflow_and_truncation.1 4 8 C10over rfl (by decide)
      (by decide) (by decide) (by decide) (by decide),
    by
      have h := C10_recv_line_overflow_and_truncation.2 4 3 C10trunc
        [65, 66, 67] [68] rfl (by decide) rfl (by decide) (by decide)
      simpa using h⟩

/-- C8 (amended): every finite numeric value written into a serialized
frame is emitted at full double precision (in this exact model,
unchanged — not rounded to 4 fractional digits); every non-finite value
(NaN or Infinity) serializes as `null`, and nothing else does; number
serialization is a total function and never raises. -/
theorem C8_full_precision_numbers :
    (∀ x1 y1 x2 y2 : ℚ,
        cb_line_numbers (.val x1) (.val y1) (.val x2) (.val y2) =
          [.num x1, .num y1, .num x2, .num y2]) ∧
    (∀ v : JNum, cjson_print_number v = .null ↔ v = .nonfinite) ∧
    (∀ x1 y2 : ℚ,
        cb_line_numbers (.val x1) .nonfinite .nonfinite (.val y2) =
          [.num x1, .null, .null, .num y2]) := by
  refine ⟨fun _ _ _ _ => rfl, ?_, fun _ _ => rfl⟩
  intro v
  cases v with
  | val q => simp [cjson_print_number]
  | nonfinite => simp [cjson_print_number]

end JGD
